import Mathlib

set_option autoImplicit false

/-
Verification of the ReactiveValue utility
(src/packages/js-draw/src/util/ReactiveValue.ts).

The base class `ReactiveValueImpl<T>` holds a current value, an ordered
array of update listeners, and dispatches `setValue` synchronously:

  public setValue(newValue: T) {
    if (this.#value === newValue) { return; }
    this.#value = newValue;
    for (const listener of this.#onUpdateListeners) { listener(newValue); }
  }

  public addUpdateListener(listener) {
    this.#onUpdateListeners.push(listener);
    return { remove: () => {
      this.#onUpdateListeners =
        this.#onUpdateListeners.filter(o => o !== listener); } };
  }

  public onUpdateAndNow(callback) {
    callback(this.getValue());
    return this.addUpdateListener(callback);
  }

We embed the state as a record `RVImpl T`.  Listeners are identified by a
`Nat` id (modelling closure identity: `===` on functions) together with a
behaviour drawn from a closed syntax `LAct` sufficient for the claims:
`record` (a pure observer that records the value it was passed and what
`getValue()` returns mid-callback) and `removeSelf` (an observer that also
calls `remove()` on its own subscription inside its callback body).
Invocations are accumulated in a `log`.

A JS `for..of` loop captures the array object once; `remove()` replaces the
field with a *new* filtered array, so an in-flight dispatch keeps iterating
the snapshot taken at dispatch start.  `runListeners` iterates exactly that
snapshot while threading the (mutable) state.
-/

namespace ReactiveValueSpec

/-- Closed syntax of listener behaviours used by the claims. -/
inductive LAct where
  | record
  | removeSelf
  deriving DecidableEq, Repr

/-- One listener invocation: which listener ran, the value passed to the
callback, and the value `getValue()` returned at that moment. -/
structure LogEntry (T : Type) where
  id : Nat
  passed : T
  observed : T
  deriving DecidableEq, Repr

/-- State of one `ReactiveValueImpl<T>`: the stored `#value`, the ordered
listener array `#onUpdateListeners`, and the accumulated invocation log. -/
structure RVImpl (T : Type) where
  value : T
  onUpdateListeners : List (Nat × LAct)
  log : List (LogEntry T)
  deriving DecidableEq, Repr

/-- `getValue()` returns a reference to the current value. -/
def getValue {T : Type} (s : RVImpl T) : T :=
  s.value

/-- Invoke one listener `p` with argument `newValue` on state `s`.
A `record` listener records its invocation; a `removeSelf` listener records
its invocation and then calls `remove()` on its own subscription, which
filters the listener array by identity. -/
def runOne {T : Type} (newValue : T) (p : Nat × LAct) (s : RVImpl T) : RVImpl T :=
  match p.2 with
  | .record =>
      { s with log := s.log ++ [⟨p.1, newValue, getValue s⟩] }
  | .removeSelf =>
      { s with
        log := s.log ++ [⟨p.1, newValue, getValue s⟩],
        onUpdateListeners := s.onUpdateListeners.filter (fun q => q.1 ≠ p.1) }

/-- The dispatch loop `for (const listener of snapshot) listener(newValue)`,
iterating the snapshot of the listener array taken at dispatch start. -/
def runListeners {T : Type} (newValue : T) : List (Nat × LAct) → RVImpl T → RVImpl T
  | [], s => s
  | p :: rest, s => runListeners newValue rest (runOne newValue p s)

/-- `setValue`: return immediately if `newValue` is identical to the stored
value; otherwise store it first, then run every currently-registered
listener in registration order. -/
def setValue {T : Type} [DecidableEq T] (s : RVImpl T) (newValue : T) : RVImpl T :=
  if getValue s = newValue then s
  else
    let s1 : RVImpl T := { s with value := newValue }
    runListeners newValue s1.onUpdateListeners s1

/-- `addUpdateListener`: push the listener onto the array. -/
def addUpdateListener {T : Type} (s : RVImpl T) (p : Nat × LAct) : RVImpl T :=
  { s with onUpdateListeners := s.onUpdateListeners ++ [p] }

/-- The `remove()` of the handle returned by `addUpdateListener`: replace
the listener array by one filtered by identity with the registered
callback. -/
def removeListener {T : Type} (s : RVImpl T) (i : Nat) : RVImpl T :=
  { s with onUpdateListeners := s.onUpdateListeners.filter (fun q => q.1 ≠ i) }

/-- `onUpdateAndNow`: call the callback immediately with `getValue()`, then
register it exactly as `addUpdateListener` does. -/
def onUpdateAndNow {T : Type} (s : RVImpl T) (p : Nat × LAct) : RVImpl T :=
  addUpdateListener (runOne (getValue s) p s) p

theorem runOne_value {T : Type} (v : T) (p : Nat × LAct) (s : RVImpl T) :
    (runOne v p s).value = s.value := by
  cases hp : p.2 <;> simp [runOne, hp]

theorem runListeners_value {T : Type} (v : T) (L : List (Nat × LAct)) (s : RVImpl T) :
    (runListeners v L s).value = s.value := by
  induction L generalizing s with
  | nil => rfl
  | cons p rest ih => simp [runListeners, ih, runOne_value]

theorem runOne_log {T : Type} (v : T) (p : Nat × LAct) (s : RVImpl T) :
    (runOne v p s).log = s.log ++ [⟨p.1, v, s.value⟩] := by
  cases hp : p.2 <;> simp [runOne, hp, getValue]

theorem runListeners_log {T : Type} (v : T) (L : List (Nat × LAct)) (s : RVImpl T)
    (hv : s.value = v) :
    (runListeners v L s).log = s.log ++ L.map (fun p => ⟨p.1, v, v⟩) := by
  induction L generalizing s with
  | nil => simp [runListeners]
  | cons p rest ih =>
      have h1 : (runOne v p s).value = v := by rw [runOne_value, hv]
      have h2 := ih (runOne v p s) h1
      simp [runListeners, h2, runOne_log, hv, List.append_assoc]

theorem runOne_listeners_subset {T : Type} (v : T) (p : Nat × LAct) (s : RVImpl T) :
    ∀ q ∈ (runOne v p s).onUpdateListeners, q ∈ s.onUpdateListeners := by
  intro q hq
  cases hp : p.2 <;> simp [runOne, hp] at hq
  · exact hq
  · exact hq.1

theorem runListeners_listeners_subset {T : Type} (v : T) (L : List (Nat × LAct))
    (s : RVImpl T) :
    ∀ q ∈ (runListeners v L s).onUpdateListeners, q ∈ s.onUpdateListeners := by
  induction L generalizing s with
  | nil => intro q hq; exact hq
  | cons p rest ih =>
      intro q hq
      exact runOne_listeners_subset v p s q (ih (runOne v p s) q hq)

theorem runListeners_removeSelf {T : Type} (v : T) (b : Nat) (L : List (Nat × LAct))
    (s : RVImpl T) (hb : (b, LAct.removeSelf) ∈ L) :
    ∀ q ∈ (runListeners v L s).onUpdateListeners, q.1 ≠ b := by
  induction L generalizing s with
  | nil => cases hb
  | cons p rest ih =>
      rcases List.mem_cons.mp hb with hp | hp
      · intro q hq
        have hsub := runListeners_listeners_subset v rest (runOne v p s) q hq
        rw [← hp] at hsub
        simp [runOne] at hsub
        exact hsub.2
      · intro q hq
        exact ih (runOne v p s) hp q hq

theorem runListeners_log_ids {T : Type} (v : T) (L : List (Nat × LAct)) (s : RVImpl T) :
    ∀ e ∈ (runListeners v L s).log, e ∈ s.log ∨ ∃ q ∈ L, e.id = q.1 := by
  induction L generalizing s with
  | nil => intro e he; exact Or.inl he
  | cons p rest ih =>
      intro e he
      rcases ih (runOne v p s) e he with h | h
      · rw [runOne_log] at h
        rcases List.mem_append.mp h with h1 | h1
        · exact Or.inl h1
        · simp at h1
          exact Or.inr ⟨p, List.mem_cons_self p rest, by rw [h1]⟩
      · rcases h with ⟨q, hq, hid⟩
        exact Or.inr ⟨q, List.mem_cons_of_mem p hq, hid⟩

theorem setValue_eq_self {T : Type} [DecidableEq T] (s : RVImpl T) (v : T)
    (hv : s.value = v) : setValue s v = s := by
  simp [setValue, getValue, hv]

theorem setValue_changed {T : Type} [DecidableEq T] (s : RVImpl T) (v : T)
    (hv : s.value ≠ v) :
    (setValue s v).value = v ∧
    (setValue s v).log = s.log ++ s.onUpdateListeners.map (fun p => ⟨p.1, v, v⟩) := by
  unfold setValue getValue
  rw [if_neg hv]
  exact ⟨runListeners_value v s.onUpdateListeners _, runListeners_log v _ _ rfl⟩

/-- Example state used by witnesses: value `0`, one recording listener. -/
def exRV : RVImpl Nat := ⟨0, [(1, LAct.record)], []⟩

/-- Example state used by witnesses: value `0`, two recording listeners. -/
def exRV2 : RVImpl Nat := ⟨0, [(1, LAct.record), (2, LAct.record)], []⟩

/-- Example state used by witnesses: listener `2` removes itself during its
own callback; listeners `1` and `3` are plain observers. -/
def exRV3 : RVImpl Nat := ⟨0, [(1, LAct.record), (2, LAct.removeSelf), (3, LAct.record)], []⟩

/-- C1: `setValue(v)` with `v` identical (`===`) to the stored value returns
with no observable effect (state, and in particular the stored value and
the invocation log, unchanged); and after `setValue(x)` with `x` fresh, a
second `setValue(x)` is a no-op, so each listener fires exactly once in
total. -/
theorem setValue_noop_on_identical {T : Type} [DecidableEq T] (s : RVImpl T) (v x : T) :
    (s.value = v → setValue s v = s) ∧
    (s.value ≠ x →
      (setValue s x).log = s.log ++ s.onUpdateListeners.map (fun p => ⟨p.1, x, x⟩) ∧
      setValue (setValue s x) x = setValue s x) := by
  refine ⟨fun hv => setValue_eq_self s v hv, fun hx => ?_⟩
  exact ⟨(setValue_changed s x hx).2, setValue_eq_self _ x (setValue_changed s x hx).1⟩

theorem setValue_noop_on_identical_witness :
    (setValue exRV 0 = exRV) ∧
    ((setValue exRV 5).log = exRV.log ++ exRV.onUpdateListeners.map (fun p => ⟨p.1, 5, 5⟩) ∧
      setValue (setValue exRV 5) 5 = setValue exRV 5) := by
  have h := setValue_noop_on_identical exRV 0 5
  exact ⟨h.1 (by decide), h.2 (by decide)⟩

/-- C3: `setValue(v)` with `v` not identical to the stored value stores `v`
and then invokes every currently-registered listener in registration order,
passing `v`; every listener that reads `getValue()` mid-callback observes
the new value `v` (the `observed` component of each new log entry). -/
theorem setValue_stores_then_notifies {T : Type} [DecidableEq T] (s : RVImpl T) (v : T)
    (hv : s.value ≠ v) :
    (setValue s v).value = v ∧
    (setValue s v).log = s.log ++ s.onUpdateListeners.map (fun p => ⟨p.1, v, v⟩) :=
  setValue_changed s v hv

theorem setValue_stores_then_notifies_witness :
    (setValue exRV2 7).value = 7 ∧
    (setValue exRV2 7).log = exRV2.log ++ exRV2.onUpdateListeners.map (fun p => ⟨p.1, 7, 7⟩) :=
  setValue_stores_then_notifies exRV2 7 (by decide)

/-- C6: after `remove()` on the handle for listener `i`, no subsequent
`setValue` ever logs an invocation of `i` again; a second `remove()` is a
no-op; and removal matches by identity, leaving every other registered
listener in place. -/
theorem remove_unregisters {T : Type} [DecidableEq T] (s : RVImpl T) (i : Nat) :
    (∀ v : T, ∀ e ∈ (setValue (removeListener s i) v).log, e ∈ s.log ∨ e.id ≠ i) ∧
    removeListener (removeListener s i) i = removeListener s i ∧
    (∀ q ∈ s.onUpdateListeners, q.1 ≠ i → q ∈ (removeListener s i).onUpdateListeners) := by
  refine ⟨?_, ?_, ?_⟩
  · intro v e he
    by_cases hv : (removeListener s i).value = v
    · rw [setValue_eq_self _ v hv] at he
      exact Or.inl he
    · rw [(setValue_changed _ v hv).2] at he
      rcases List.mem_append.mp he with h1 | h1
      · exact Or.inl h1
      · rcases List.mem_map.mp h1 with ⟨q, hq, hqe⟩
        simp [removeListener, List.mem_filter] at hq
        exact Or.inr (by rw [← hqe]; exact hq.2)
  · simp [removeListener, List.filter_filter]
  · intro q hq hqi
    simp [removeListener, List.mem_filter]
    exact ⟨hq, hqi⟩

theorem remove_unregisters_witness :
    ((∀ e ∈ (setValue (removeListener exRV2 1) 9).log, e ∈ exRV2.log ∨ e.id ≠ 1) ∧
      removeListener (removeListener exRV2 1) 1 = removeListener exRV2 1 ∧
      ((2, LAct.record) ∈ (removeListener exRV2 1).onUpdateListeners)) := by
  have h := remove_unregisters exRV2 1
  exact ⟨h.1 9, h.2.1, h.2.2 (2, LAct.record) (by decide) (by decide)⟩

/-- C7: `onUpdateAndNow(callback)` invokes the callback synchronously
exactly once before returning, passing the value current at call time (the
stored value is not changed by this), and then registers the callback
exactly as `addUpdateListener` would. -/
theorem onUpdateAndNow_calls_once_then_registers {T : Type} (s : RVImpl T) (i : Nat) (act : LAct) :
    (onUpdateAndNow s (i, act)).log = s.log ++ [⟨i, getValue s, getValue s⟩] ∧
    (onUpdateAndNow s (i, act)).value = s.value ∧
    onUpdateAndNow s (i, act) = addUpdateListener (runOne (getValue s) (i, act) s) (i, act) ∧
    (onUpdateAndNow s (i, LAct.record)).onUpdateListeners
      = s.onUpdateListeners ++ [(i, LAct.record)] := by
  refine ⟨?_, ?_, rfl, ?_⟩
  · simp [onUpdateAndNow, addUpdateListener, runOne_log, getValue]
  · simp [onUpdateAndNow, addUpdateListener, runOne_value]
  · simp [onUpdateAndNow, addUpdateListener, runOne]

/-- C8: a listener that calls `remove()` on its own subscription inside its
callback does not break the dispatch: every listener registered at dispatch
start still runs (the log grows by one entry per registered listener, in
order), the self-remover is no longer registered afterwards, and no
subsequent `setValue` ever invokes it again. -/
theorem selfRemoval_during_notification {T : Type} [DecidableEq T] (s : RVImpl T) (v : T)
    (b : Nat) (hb : (b, LAct.removeSelf) ∈ s.onUpdateListeners) (hv : s.value ≠ v) :
    (setValue s v).log = s.log ++ s.onUpdateListeners.map (fun p => ⟨p.1, v, v⟩) ∧
    (∀ q ∈ (setValue s v).onUpdateListeners, q.1 ≠ b) ∧
    (∀ w : T, ∀ e ∈ (setValue (setValue s v) w).log,
      e ∈ (setValue s v).log ∨ e.id ≠ b) := by
  have hrm : ∀ q ∈ (setValue s v).onUpdateListeners, q.1 ≠ b := by
    unfold setValue getValue
    rw [if_neg hv]
    exact runListeners_removeSelf v b s.onUpdateListeners _ hb
  refine ⟨(setValue_changed s v hv).2, hrm, ?_⟩
  intro w e he
  by_cases hw : (setValue s v).value = w
  · rw [setValue_eq_self _ w hw] at he
    exact Or.inl he
  · rw [(setValue_changed _ w hw).2] at he
    rcases List.mem_append.mp he with h1 | h1
    · exact Or.inl h1
    · rcases List.mem_map.mp h1 with ⟨q, hq, hqe⟩
      exact Or.inr (by rw [← hqe]; exact hrm q hq)

theorem selfRemoval_during_notification_witness :
    (setValue exRV3 4).log = exRV3.log ++ exRV3.onUpdateListeners.map (fun p => ⟨p.1, 4, 4⟩) ∧
    (∀ q ∈ (setValue exRV3 4).onUpdateListeners, q.1 ≠ 2) ∧
    (∀ e ∈ (setValue (setValue exRV3 4) 8).log,
      e ∈ (setValue exRV3 4).log ∨ e.id ≠ 2) := by
  have h := selfRemoval_during_notification exRV3 4 2 (by decide) (by decide)
  exact ⟨h.1, h.2.1, h.2.2 8⟩

/-
mapReactiveValueMutable (ReactiveValue.ts lines 187-209):

  const result = reactiveValueFromInitialValue(map(source.getValue()));
  let expectedResultValue = result.getValue();
  source.addUpdateListener(newValue => {
    expectedResultValue = map(newValue);
    result.setValue(expectedResultValue);
  });
  result.addUpdateListener(newValue => {
    if (newValue !== expectedResultValue) {
      source.setValue(inverseMap(newValue));
    }
  });

The spec scenario additionally registers a counting listener on `source`
after this wiring, so a source dispatch runs the wiring listener first and
the counter second.  Values are numbers, for which `===` is numeric
equality; we use `Int`.  The reentrant `setValue` chain
(source -> result -> source -> ...) is modelled as one recursive function
over a fuel bound, tagged by which value's `setValue` is executing.
-/

/-- Joint state of `source`, `result`, the closure variable
`expectedResultValue`, and the count of fires of a counting listener
registered on `source` after the wiring. -/
structure MapSystem where
  sourceValue : Int
  resultValue : Int
  expectedResultValue : Int
  sourceFires : Nat
  deriving DecidableEq, Repr

/-- One `setValue` call in the two-value system of `mapReactiveValueMutable`.
`true` tags `source.setValue`, `false` tags `result.setValue`; both follow
`ReactiveValueImpl.setValue` (no-op on identical value, else store then
dispatch) with the listeners wired by the constructor. -/
def runUpdate (map inv : Int → Int) : Nat → Bool → MapSystem → Int → MapSystem
  | 0, _, sys, _ => sys
  | fuel + 1, true, sys, v =>
      if sys.sourceValue = v then sys
      else
        let sys2 : MapSystem := { sys with sourceValue := v, expectedResultValue := map v }
        let sys3 : MapSystem := runUpdate map inv fuel false sys2 (map v)
        { sys3 with sourceFires := sys3.sourceFires + 1 }
  | fuel + 1, false, sys, v =>
      if sys.resultValue = v then sys
      else
        let sys1 : MapSystem := { sys with resultValue := v }
        if v ≠ sys1.expectedResultValue then runUpdate map inv fuel true sys1 (inv v)
        else sys1

/-- `source.setValue v` in the wired system. -/
def setSourceM (map inv : Int → Int) (fuel : Nat) (sys : MapSystem) (v : Int) : MapSystem :=
  runUpdate map inv fuel true sys v

/-- `result.setValue v` in the wired system. -/
def setResultM (map inv : Int → Int) (fuel : Nat) (sys : MapSystem) (v : Int) : MapSystem :=
  runUpdate map inv fuel false sys v

/-- Construction: `result = reactiveValueFromInitialValue(map(source.getValue()))`
and `expectedResultValue = result.getValue()`. -/
def mkMapSystem (map : Int → Int) (a0 : Int) : MapSystem :=
  { sourceValue := a0, resultValue := map a0, expectedResultValue := map a0, sourceFires := 0 }

/-- The concrete map of the spec scenario. -/
def dblFn : Int → Int := fun x => x * 2

/-- The concrete inverse map of the spec scenario. -/
def hlfFn : Int → Int := fun y => y / 2

theorem setResultM_echo (map inv : Int → Int) (fuel : Nat) (sys : MapSystem) (v : Int)
    (hexp : v = sys.expectedResultValue) :
    setResultM map inv (fuel + 1) sys v = { sys with resultValue := v } := by
  by_cases h : sys.resultValue = v
  · have he : ({ sys with resultValue := v } : MapSystem) = sys := by
      cases sys
      simp_all
    rw [he]
    simp [setResultM, runUpdate, h]
  · simp only [setResultM, runUpdate, if_neg h]
    simp [hexp]

theorem setSourceM_update (map inv : Int → Int) (fuel : Nat) (sys : MapSystem) (v : Int)
    (hv : sys.sourceValue ≠ v) :
    setSourceM map inv (fuel + 2) sys v =
      { sourceValue := v, resultValue := map v, expectedResultValue := map v,
        sourceFires := sys.sourceFires + 1 } := by
  show runUpdate map inv (fuel + 1 + 1) true sys v = _
  simp only [runUpdate, if_neg hv]
  by_cases h : sys.resultValue = map v <;> simp [h]

/-- C2: in `mapReactiveValueMutable(source, map, inverseMap)`: (1) every
source update with a fresh value stores it, pushes `map(newValue)` into the
result (recording it as `expectedResultValue`), fires the source counter
exactly once, and does not round-trip back into the source; (2) a result
update whose new value equals the last self-pushed `expectedResultValue` is
an echo: the inverse is skipped and only the stored result value changes;
(3) a result update with a fresh value different from `expectedResultValue`
pushes `inverseMap(newValue)` into the source; and, concretely, with
`map = x => x * 2`, `inverse = y => y / 2`, source initialized to `5`: the
derived value starts at `10`, setting the derived value to `20` drives the
source to `10` (counter fires once), and then setting the source to `3`
drives the derived value to `6` with no second round-trip (counter fires
exactly once more). -/
theorem mapReactiveValueMutable_spec :
    (∀ (map inv : Int → Int) (fuel : Nat) (sys : MapSystem) (v : Int),
      sys.sourceValue ≠ v →
        setSourceM map inv (fuel + 2) sys v =
          { sourceValue := v, resultValue := map v, expectedResultValue := map v,
            sourceFires := sys.sourceFires + 1 }) ∧
    (∀ (map inv : Int → Int) (fuel : Nat) (sys : MapSystem) (v : Int),
      sys.resultValue ≠ v → v = sys.expectedResultValue →
        setResultM map inv (fuel + 1) sys v = { sys with resultValue := v }) ∧
    (∀ (map inv : Int → Int) (fuel : Nat) (sys : MapSystem) (v : Int),
      sys.resultValue ≠ v → v ≠ sys.expectedResultValue →
        setResultM map inv (fuel + 1) sys v =
          setSourceM map inv fuel { sys with resultValue := v } (inv v)) ∧
    (mkMapSystem dblFn 5).resultValue = 10 ∧
    setResultM dblFn hlfFn 10 (mkMapSystem dblFn 5) 20 =
      { sourceValue := 10, resultValue := 20, expectedResultValue := 20, sourceFires := 1 } ∧
    setSourceM dblFn hlfFn 10
      { sourceValue := 10, resultValue := 20, expectedResultValue := 20, sourceFires := 1 } 3 =
      { sourceValue := 3, resultValue := 6, expectedResultValue := 6, sourceFires := 2 } := by
  refine ⟨fun map inv fuel sys v hv => setSourceM_update map inv fuel sys v hv,
    fun map inv fuel sys v _ hexp => setResultM_echo map inv fuel sys v hexp,
    fun map inv fuel sys v hv hexp => ?_, by decide, by decide, by decide⟩
  simp only [setResultM, setSourceM, runUpdate, if_neg hv]
  simp [hexp]

theorem mapReactiveValueMutable_spec_witness :
    setSourceM dblFn hlfFn 2 (mkMapSystem dblFn 5) 3 =
      { sourceValue := 3, resultValue := 6, expectedResultValue := 6, sourceFires := 1 } :=
  mapReactiveValueMutable_spec.1 dblFn hlfFn 0 (mkMapSystem dblFn 5) 3 (by decide)

/-
reactiveValueFromPropertyMutable (ReactiveValue.ts lines 153-185):

  const child = reactiveValueFromInitialValue(sourceValue.getValue()[propertyName]);
  const childRef = new WeakRef(child);
  const sourceListener = sourceValue.addUpdateListener(newValue => {
    const childValue = childRef.deref();
    if (childValue) { childValue.setValue(newValue[propertyName]); }
    else { sourceListener.remove(); }
  });
  child.addUpdateListener(newValue => {
    sourceValue.setValue({ ...sourceValue.getValue(), [propertyName]: newValue });
  });

The spec scenario uses a parent holding `{color: 'red', size: 5}` and the
property `color`.  The parent's stored value is an object, compared by
`===` (reference identity), while the child's stored value is a string,
compared by value.  We therefore model objects as addresses into an
explicit heap of `Obj` records; the spread `{...obj, color: c}` allocates a
fresh object at a fresh address (`heap.length`).  An external observing
listener on the parent, registered after the wiring, logs the address it is
passed (`parentLog`); the wiring listener (registered first) runs before it.
The child is assumed alive (`childRef.deref()` succeeds) throughout.
-/

/-- The object type of the spec scenario: `{color, size}`. -/
structure Obj where
  color : String
  size : Int
  deriving DecidableEq, Repr

/-- Default used to totalize heap lookups (never hit under well-formedness). -/
def defaultObj : Obj := ⟨"", 0⟩

/-- Joint state: heap of allocated objects (address = index), the parent's
stored address, the child's stored string, and the log of addresses passed
to an external parent listener. -/
structure PropSystem where
  heap : List Obj
  parentAddr : Nat
  childColor : String
  parentLog : List Nat
  deriving DecidableEq, Repr

/-- Pending `setValue` call in the parent/child pair: on the parent with an
address, or on the child with a string. -/
inductive PropUpd where
  | parent (a : Nat)
  | child (c : String)
  deriving DecidableEq, Repr

/-- One `setValue` in the wired parent/child system, following
`ReactiveValueImpl.setValue` on each side with the listeners wired by
`reactiveValueFromPropertyMutable`.  A parent update first pushes
`newValue[propertyName]` into the child (the wiring listener), then logs to
the external listener; a child update allocates `{...parent.getValue(),
color: newValue}` fresh and pushes its address into the parent. -/
def runPropUpdate : Nat → PropUpd → PropSystem → PropSystem
  | 0, _, sys => sys
  | fuel + 1, .parent a, sys =>
      if sys.parentAddr = a then sys
      else
        let sys1 : PropSystem := { sys with parentAddr := a }
        let obj := sys1.heap.getD a defaultObj
        let sys2 := runPropUpdate fuel (.child obj.color) sys1
        { sys2 with parentLog := sys2.parentLog ++ [a] }
  | fuel + 1, .child c, sys =>
      if sys.childColor = c then sys
      else
        let sys1 : PropSystem := { sys with childColor := c }
        let cur := sys1.heap.getD sys1.parentAddr defaultObj
        let fresh := sys1.heap.length
        let sys2 : PropSystem := { sys1 with heap := sys1.heap ++ [{ cur with color := c }] }
        runPropUpdate fuel (.parent fresh) sys2

/-- `child.setValue c` (external caller). -/
def setChildP (fuel : Nat) (sys : PropSystem) (c : String) : PropSystem :=
  runPropUpdate fuel (.child c) sys

/-- `parent.setValue(p)` with a brand-new object `p` (external caller):
allocates `p` at a fresh address and dispatches the parent update. -/
def setParentExternal (fuel : Nat) (sys : PropSystem) (o : Obj) : PropSystem :=
  runPropUpdate fuel (.parent sys.heap.length) { sys with heap := sys.heap ++ [o] }

/-- Construction: parent seeded with one object, child seeded with
`sourceValue.getValue()[propertyName]`. -/
def mkPropSystem (o : Obj) : PropSystem :=
  { heap := [o], parentAddr := 0, childColor := o.color, parentLog := [] }

theorem getD_append_length (l : List Obj) (o d : Obj) :
    (l ++ [o]).getD l.length d = o := by
  rw [List.getD_append_right _ _ _ _ (le_refl _)]
  simp

theorem mkObj_eta (o : Obj) : ({ color := o.color, size := o.size } : Obj) = o := rfl

theorem getElem_append_length_succ (l : List Obj) (a b : Obj)
    (h : l.length + 1 < (l ++ [a, b]).length) :
    (l ++ [a, b])[l.length + 1] = b := by
  rw [List.getElem_append_right] <;> simp

theorem setChildP_update (fuel : Nat) (sys : PropSystem) (c : String)
    (hwf : sys.parentAddr < sys.heap.length) (hc : sys.childColor ≠ c) :
    setChildP (fuel + 3) sys c =
      { heap := sys.heap ++ [{ sys.heap.getD sys.parentAddr defaultObj with color := c }],
        parentAddr := sys.heap.length,
        childColor := c,
        parentLog := sys.parentLog ++ [sys.heap.length] } := by
  have h1 : sys.parentAddr ≠ sys.heap.length := Nat.ne_of_lt hwf
  have h2 : (sys.heap ++ [{ sys.heap.getD sys.parentAddr defaultObj with color := c }]).getD
      sys.heap.length defaultObj
      = { sys.heap.getD sys.parentAddr defaultObj with color := c } :=
    getD_append_length _ _ _
  simp only [setChildP, runPropUpdate, if_neg hc]
  simp [h1, h2]

theorem setParentExternal_update (fuel : Nat) (sys : PropSystem) (o : Obj)
    (hwf : sys.parentAddr < sys.heap.length) (hc : o.color ≠ sys.childColor) :
    setParentExternal (fuel + 4) sys o =
      { heap := sys.heap ++ [o, o],
        parentAddr := sys.heap.length + 1,
        childColor := o.color,
        parentLog := sys.parentLog ++ [sys.heap.length + 1, sys.heap.length] } := by
  have h1 : sys.parentAddr ≠ sys.heap.length := Nat.ne_of_lt hwf
  have h2 : (sys.heap ++ [o]).getD sys.heap.length defaultObj = o :=
    getD_append_length _ _ _
  have h3 : ((sys.heap ++ [o]) ++ [o]).getD (sys.heap.length + 1) defaultObj = o := by
    have := getD_append_length (sys.heap ++ [o]) o defaultObj
    simpa using this
  have h4 : sys.parentAddr ≠ sys.heap.length + 1 :=
    Nat.ne_of_lt (Nat.lt_succ_of_lt hwf)
  simp only [setParentExternal, runPropUpdate]
  simp [h1, h2, h3, h4, hc.symm, mkObj_eta, getElem_append_length_succ]

theorem setParentExternal_same (fuel : Nat) (sys : PropSystem) (o : Obj)
    (hwf : sys.parentAddr < sys.heap.length) (hc : o.color = sys.childColor) :
    setParentExternal (fuel + 2) sys o =
      { sys with heap := sys.heap ++ [o], parentAddr := sys.heap.length,
                 parentLog := sys.parentLog ++ [sys.heap.length] } := by
  have h1 : sys.parentAddr ≠ sys.heap.length := Nat.ne_of_lt hwf
  have h2 : (sys.heap ++ [o]).getD sys.heap.length defaultObj = o :=
    getD_append_length _ _ _
  simp only [setParentExternal, runPropUpdate]
  simp [h1, h2, hc]

/-- C4: for a child from `reactiveValueFromPropertyMutable(parent, 'color')`:
setting the child to a fresh value `c` makes the parent's stored object a
structural copy of its previous object with only `color` replaced by `c`
(`size` preserved), and the child stores `c`; setting the parent to a new
object updates the child to that object's `color` field.  Concretely, from
`{color: 'red', size: 5}`: updating the child to `'blue'` makes the parent's
object `{color: 'blue', size: 5}`, and then updating the parent to
`{color: 'green', size: 5}` updates the child to `'green'`. -/
theorem reactiveValueFromPropertyMutable_spec :
    (∀ (fuel : Nat) (sys : PropSystem) (c : String),
      sys.parentAddr < sys.heap.length → sys.childColor ≠ c →
        (setChildP (fuel + 3) sys c).childColor = c ∧
        (setChildP (fuel + 3) sys c).heap.getD (setChildP (fuel + 3) sys c).parentAddr defaultObj
          = { sys.heap.getD sys.parentAddr defaultObj with color := c }) ∧
    (∀ (fuel : Nat) (sys : PropSystem) (o : Obj),
      sys.parentAddr < sys.heap.length →
        (setParentExternal (fuel + 4) sys o).childColor = o.color) ∧
    (setChildP 5 (mkPropSystem ⟨"red", 5⟩) "blue").heap.getD
        (setChildP 5 (mkPropSystem ⟨"red", 5⟩) "blue").parentAddr defaultObj
      = ⟨"blue", 5⟩ ∧
    (setParentExternal 6 (setChildP 5 (mkPropSystem ⟨"red", 5⟩) "blue") ⟨"green", 5⟩).childColor
      = "green" := by
  refine ⟨fun fuel sys c hwf hc => ?_, fun fuel sys o hwf => ?_, by decide, by decide⟩
  · rw [setChildP_update fuel sys c hwf hc]
    exact ⟨rfl, getD_append_length _ _ _⟩
  · by_cases h : o.color = sys.childColor
    · have he := setParentExternal_same (fuel + 2) sys o hwf h
      show (setParentExternal (fuel + 2 + 2) sys o).childColor = o.color
      rw [he, h]
    · rw [setParentExternal_update fuel sys o hwf h]

theorem reactiveValueFromPropertyMutable_spec_witness :
    (setChildP 5 (mkPropSystem ⟨"red", 5⟩) "blue").childColor = "blue" ∧
    (setChildP 5 (mkPropSystem ⟨"red", 5⟩) "blue").heap.getD
        (setChildP 5 (mkPropSystem ⟨"red", 5⟩) "blue").parentAddr defaultObj
      = { (mkPropSystem ⟨"red", 5⟩).heap.getD (mkPropSystem ⟨"red", 5⟩).parentAddr defaultObj
            with color := "blue" } :=
  reactiveValueFromPropertyMutable_spec.1 2 (mkPropSystem ⟨"red", 5⟩) "blue"
    (by decide) (by decide)

/-- C9 (implicit): an external `parent.setValue(p)` whose `p[key]` differs
from the child's current value triggers the parent's listeners a second
time with a newly-constructed object that is structurally equal to `p` but
allocated at a fresh address (not reference-identical to `p`, because the
write-back listener always builds a fresh spread object and `setValue`
compares by reference); afterwards `parent.getValue()` is that fresh copy,
not `p` itself, and the reverberation stops because the child's re-update
is a no-op. -/
theorem propertyMutable_parent_reverberation (fuel : Nat) (sys : PropSystem) (o : Obj)
    (hwf : sys.parentAddr < sys.heap.length) (hc : o.color ≠ sys.childColor) :
    setParentExternal (fuel + 4) sys o =
      { heap := sys.heap ++ [o, o],
        parentAddr := sys.heap.length + 1,
        childColor := o.color,
        parentLog := sys.parentLog ++ [sys.heap.length + 1, sys.heap.length] } ∧
    (setParentExternal (fuel + 4) sys o).parentAddr ≠ sys.heap.length ∧
    (setParentExternal (fuel + 4) sys o).heap.getD
        (setParentExternal (fuel + 4) sys o).parentAddr defaultObj = o := by
  have h := setParentExternal_update fuel sys o hwf hc
  refine ⟨h, ?_, ?_⟩
  · rw [h]
    simp
  · rw [h]
    simpa using getD_append_length (sys.heap ++ [o]) o defaultObj

theorem propertyMutable_parent_reverberation_witness :
    setParentExternal 4 (mkPropSystem ⟨"red", 5⟩) ⟨"green", 5⟩ =
      { heap := [⟨"red", 5⟩, ⟨"green", 5⟩, ⟨"green", 5⟩], parentAddr := 2,
        childColor := "green", parentLog := [2, 1] } ∧
    (setParentExternal 4 (mkPropSystem ⟨"red", 5⟩) ⟨"green", 5⟩).parentAddr ≠ 1 ∧
    (setParentExternal 4 (mkPropSystem ⟨"red", 5⟩) ⟨"green", 5⟩).heap.getD
        (setParentExternal 4 (mkPropSystem ⟨"red", 5⟩) ⟨"green", 5⟩).parentAddr defaultObj
      = ⟨"green", 5⟩ :=
  propertyMutable_parent_reverberation 0 (mkPropSystem ⟨"red", 5⟩) ⟨"green", 5⟩
    (by decide) (by decide)

/-
reactiveValueFromCallback (ReactiveValue.ts lines 110-130):

  const result = new ReactiveValueImpl(callback());
  const resultRef = new WeakRef(result);
  for (const value of sourceValues) {
    const listener = value.addUpdateListener(() => {
      const value = resultRef.deref();
      if (value) { value.setValue(callback()); }
      else { listener.remove(); }
    });
  }

Modelled for two sources `a`, `b` holding `Int`s and a callback
`compute a b` reading their current values, with the result alive
(`deref()` succeeds).  `computeCount` counts invocations of `callback()`
(one at construction, one per source fire, with no memoization);
`resultFires` counts how often the result's own update listeners fire,
which `ReactiveValueImpl.setValue` suppresses exactly when the recomputed
value is identical to the stored one.
-/

/-- Joint state of the two sources, the derived result, the number of
`callback()` invocations, and the number of result listener fires. -/
structure CallbackSystem where
  aValue : Int
  bValue : Int
  resultValue : Int
  computeCount : Nat
  resultFires : Nat
  deriving DecidableEq, Repr

/-- Construction: `new ReactiveValueImpl(callback())` evaluates the
callback exactly once for the initial value. -/
def mkCallbackSystem (compute : Int → Int → Int) (a0 b0 : Int) : CallbackSystem :=
  { aValue := a0, bValue := b0, resultValue := compute a0 b0,
    computeCount := 1, resultFires := 0 }

/-- `result.setValue v`: `ReactiveValueImpl.setValue` on the result
(no-op when `v` is identical to the stored value, else store and fire). -/
def resultSetValue (sys : CallbackSystem) (v : Int) : CallbackSystem :=
  if sys.resultValue = v then sys
  else { sys with resultValue := v, resultFires := sys.resultFires + 1 }

/-- `a.setValue v`: no-op when identical, else store and run the wiring
listener, which re-evaluates `callback()` and calls
`result.setValue(callback())`. -/
def setCbA (compute : Int → Int → Int) (sys : CallbackSystem) (v : Int) : CallbackSystem :=
  if sys.aValue = v then sys
  else
    let sys1 : CallbackSystem := { sys with aValue := v }
    let sys2 : CallbackSystem := { sys1 with computeCount := sys1.computeCount + 1 }
    resultSetValue sys2 (compute sys2.aValue sys2.bValue)

/-- `b.setValue v`, symmetric to `setCbA`. -/
def setCbB (compute : Int → Int → Int) (sys : CallbackSystem) (v : Int) : CallbackSystem :=
  if sys.bValue = v then sys
  else
    let sys1 : CallbackSystem := { sys with bValue := v }
    let sys2 : CallbackSystem := { sys1 with computeCount := sys1.computeCount + 1 }
    resultSetValue sys2 (compute sys2.aValue sys2.bValue)

/-- C5: `reactiveValueFromCallback(compute, [a, b])` evaluates `compute()`
exactly once at construction for the initial value, and on every update
fired by either source — whether or not the computed result changes, and
whether or not the callback depends on that source — it re-evaluates
`compute()` (the invocation count always increments; no memoizing
shortcut) and calls `setValue(compute())` on the result, whose fan-out is
suppressed exactly by the no-op-on-equal-value rule. -/
theorem reactiveValueFromCallback_spec :
    (∀ (compute : Int → Int → Int) (a0 b0 : Int),
      (mkCallbackSystem compute a0 b0).resultValue = compute a0 b0 ∧
      (mkCallbackSystem compute a0 b0).computeCount = 1) ∧
    (∀ (compute : Int → Int → Int) (sys : CallbackSystem) (v : Int),
      sys.aValue ≠ v →
        (setCbA compute sys v).computeCount = sys.computeCount + 1 ∧
        (setCbA compute sys v).resultValue = compute v sys.bValue ∧
        (setCbA compute sys v).resultFires
          = sys.resultFires + (if compute v sys.bValue = sys.resultValue then 0 else 1)) ∧
    (∀ (compute : Int → Int → Int) (sys : CallbackSystem) (v : Int),
      sys.bValue ≠ v →
        (setCbB compute sys v).computeCount = sys.computeCount + 1 ∧
        (setCbB compute sys v).resultValue = compute sys.aValue v ∧
        (setCbB compute sys v).resultFires
          = sys.resultFires + (if compute sys.aValue v = sys.resultValue then 0 else 1)) := by
  refine ⟨fun compute a0 b0 => ⟨rfl, rfl⟩, fun compute sys v hv => ?_, fun compute sys v hv => ?_⟩
  · simp only [setCbA, resultSetValue, if_neg hv]
    by_cases h : compute v sys.bValue = sys.resultValue
    · simp [h.symm]
    · have h2 : ¬ sys.resultValue = compute v sys.bValue := fun he => h he.symm
      simp [h, h2]
  · simp only [setCbB, resultSetValue, if_neg hv]
    by_cases h : compute sys.aValue v = sys.resultValue
    · simp [h.symm]
    · have h2 : ¬ sys.resultValue = compute sys.aValue v := fun he => h he.symm
      simp [h, h2]

theorem reactiveValueFromCallback_spec_witness :
    (setCbB (fun a _ => a) (mkCallbackSystem (fun a _ => a) 1 2) 7).computeCount
        = (mkCallbackSystem (fun a _ => a) 1 2).computeCount + 1 ∧
    (setCbB (fun a _ => a) (mkCallbackSystem (fun a _ => a) 1 2) 7).resultValue = 1 ∧
    (setCbB (fun a _ => a) (mkCallbackSystem (fun a _ => a) 1 2) 7).resultFires = 0 :=
  reactiveValueFromCallback_spec.2.2 (fun a _ => a) (mkCallbackSystem (fun a _ => a) 1 2) 7
    (by decide)

/-
Reference-capture structure of the derivation wiring, transcribed from the
source.  Each entry describes one listener closure registered by a
derivation constructor: which wired value the closure captures in order to
update it, and whether that capture is non-owning (through a `WeakRef`, so
the referent can be garbage-collected and the listener self-unregisters on
its next invocation) or owning (a plain closure capture).

- reactiveValueFromCallback, lines 110-130: each source's listener reaches
  `result` only through `resultRef = new WeakRef(result)` — weak.
- reactiveValueFromPropertyMutable, lines 153-185: the parent's listener
  reaches `child` through `childRef = new WeakRef(child)` — weak; the
  child's listener captures `sourceValue` directly — strong.
- mapReactiveValueMutable, lines 187-209: the source's listener captures
  `result` directly and the result's listener captures `source` directly —
  both strong, no `WeakRef` anywhere in the function.
- mapReactiveValue, lines 211-222: the source's listener captures `result`
  directly — strong.
-/

/-- Whether a listener closure holds its update target through a
non-owning (`WeakRef`) or an owning (plain capture) reference. -/
inductive RefKind where
  | strong
  | weak
  deriving DecidableEq, Repr

/-- One listener registered by a derivation constructor: the wired value
the closure captures to update, and how it holds it. -/
structure WiringEdge where
  capturedTarget : String
  kind : RefKind
  deriving DecidableEq, Repr

/-- Wiring of `reactiveValueFromCallback` (one such listener per source). -/
def reactiveValueFromCallbackWiring : List WiringEdge :=
  [⟨"result", RefKind.weak⟩]

/-- Wiring of `reactiveValueFromPropertyMutable`. -/
def reactiveValueFromPropertyMutableWiring : List WiringEdge :=
  [⟨"child", RefKind.weak⟩, ⟨"sourceValue", RefKind.strong⟩]

/-- Wiring of `mapReactiveValueMutable`. -/
def mapReactiveValueMutableWiring : List WiringEdge :=
  [⟨"result", RefKind.strong⟩, ⟨"source", RefKind.strong⟩]

/-- Wiring of `mapReactiveValue`. -/
def mapReactiveValueWiring : List WiringEdge :=
  [⟨"result", RefKind.strong⟩]

/-- All derivation wirings in ReactiveValue.ts. -/
def derivationWirings : List (List WiringEdge) :=
  [reactiveValueFromCallbackWiring, reactiveValueFromPropertyMutableWiring,
    mapReactiveValueMutableWiring, mapReactiveValueWiring]

/-- A wiring holds the dependent side through a non-owning reference on at
least one side. -/
def hasWeakSide (w : List WiringEdge) : Bool :=
  w.any (fun e => e.kind == RefKind.weak)

/-- C10 counterexample: it is not the case that every derivation wiring
holds a side through a non-owning (weak) reference — the wiring of
`mapReactiveValueMutable` captures both `result` and `source` strongly and
contains no `WeakRef` at all, so it is a concrete violation of the claim. -/
theorem derivation_weakRef_claim_false :
    mapReactiveValueMutableWiring ∈ derivationWirings ∧
    hasWeakSide mapReactiveValueMutableWiring = false ∧
    derivationWirings.all hasWeakSide = false := by
  decide

/-- C10 amended: `reactiveValueFromCallback` and
`reactiveValueFromPropertyMutable` hold the dependent value through a
`WeakRef` on the source-to-dependent listener, so that dependent can be
collected and the listener self-unregisters; but `mapReactiveValueMutable`
and `mapReactiveValue` register listener closures that capture the
dependent (and, for the former, the source) strongly, with no weak
reference on either side, so those derived values are retained by their
sources for as long as the sources live. -/
theorem derivation_weakRef_amended :
    hasWeakSide reactiveValueFromCallbackWiring = true ∧
    hasWeakSide reactiveValueFromPropertyMutableWiring = true ∧
    hasWeakSide mapReactiveValueMutableWiring = false ∧
    hasWeakSide mapReactiveValueWiring = false := by
  decide

end ReactiveValueSpec
